import Mathlib

/-!
Verification development for the diet-problem solver `ATCNP2.py`.

The program loads two CSV tables (nutrients with daily minimums, foods with
prices and nutrient contents), formulates the diet linear program in standard
form (negating the content matrix and the minimum vector to turn the
constraints Ax >= b into (-A)x <= -b), calls an external LP solver, and
reports the optimal purchases and a nutrient-satisfaction audit.

The embedding below models the tabular data as association lists of named
columns, numeric cells as rationals (exact arithmetic standing in for the
floating-point numbers of the source), Python exceptions as an error type
threaded through Except, and the external scipy solver as an opaque result
record, following the contract stated in the specification.
-/

set_option autoImplicit false

namespace ATCNP2

/-- A Python exception, by kind, carrying its message. -/
inductive PyError where
  | fileNotFound (msg : String)
  | keyError (msg : String)
  | valueError (msg : String)
  | typeError (msg : String)
  | indexError (msg : String)
  deriving DecidableEq, Repr

/-- Equality of Except values is decidable when both sides are. -/
instance {ε α : Type} [DecidableEq ε] [DecidableEq α] :
    DecidableEq (Except ε α) := fun x y =>
  match x, y with
  | .error e1, .error e2 => decidable_of_iff (e1 = e2) (by simp)
  | .ok a1, .ok a2 => decidable_of_iff (a1 = a2) (by simp)
  | .error _, .ok _ => isFalse (by simp)
  | .ok _, .error _ => isFalse (by simp)

/-- A cell of a pandas DataFrame: either a string or a number
(floats of the source are modelled as rationals). -/
inductive Cell where
  | str (s : String)
  | num (q : ℚ)
  deriving DecidableEq, Repr

/-- A pandas DataFrame: named columns, each a list of cells
(rows are the common index of the columns). -/
structure DataFrame where
  cols : List (String × List Cell)
  deriving DecidableEq, Repr

/-- Column access by name, first match, as in pandas df[name]. -/
def DataFrame.getCol (df : DataFrame) (name : String) : Option (List Cell) :=
  match df.cols.find? (fun p => p.1 == name) with
  | none => none
  | some p => some p.2

/-- The list of column names of a DataFrame, in order. -/
def colNames (df : DataFrame) : List String :=
  df.cols.map (fun p => p.1)

/-- Effectful map over a list in the Except monad, stopping at the first
error, written out explicitly (models a Python loop that may raise). -/
def mapE {α β : Type} (f : α → Except PyError β) : List α → Except PyError (List β)
  | [] => .ok []
  | a :: l =>
    match f a with
    | .error e => .error e
    | .ok b =>
      match mapE f l with
      | .error e => .error e
      | .ok bs => .ok (b :: bs)

/-- Column access raising KeyError when the column is absent,
as pandas does. -/
def getColE (df : DataFrame) (name : String) : Except PyError (List Cell) :=
  match df.getCol name with
  | none => .error (.keyError name)
  | some cells => .ok cells

/-- Read a cell as a number; a string cell raises (models the failure of
numeric operations on an object-dtype column). -/
def cellNumE (c : Cell) : Except PyError ℚ :=
  match c with
  | .num q => .ok q
  | .str s => .error (.typeError s)

/-- Read a cell as a string; a numeric cell raises (string-keyed lookups
with a non-string value fail downstream). -/
def cellStrE (c : Cell) : Except PyError String :=
  match c with
  | .str s => .ok s
  | .num _ => .error (.typeError "valor nao textual")

/-- A whole column as numbers: df[name].to_numpy() on a numeric column. -/
def getNumColE (df : DataFrame) (name : String) : Except PyError (List ℚ) :=
  match getColE df name with
  | .error e => .error e
  | .ok cells => mapE cellNumE cells

/-- A whole column as strings: df[name].tolist() on a string column. -/
def getStrColE (df : DataFrame) (name : String) : Except PyError (List String) :=
  match getColE df name with
  | .error e => .error e
  | .ok cells => mapE cellStrE cells

/-- Accumulate the decimal value of a digit string; fails at the first
non-digit character. -/
def digitsValAux : List Char → ℕ → Option ℕ
  | [], acc => some acc
  | c :: cs, acc =>
    if c.isDigit then digitsValAux cs (acc * 10 + (c.toNat - 48)) else none

/-- The value of a non-empty digit string, none otherwise. -/
def digitsVal : List Char → Option ℕ
  | [] => none
  | cs => digitsValAux cs 0

/-- Split a character list at the first dot, returning the part before it
and, when a dot occurs, the part after it. -/
def splitDot : List Char → List Char × Option (List Char)
  | [] => ([], none)
  | c :: cs =>
    if c = '.' then ([], some cs)
    else
      match splitDot cs with
      | (a, b) => (c :: a, b)

/-- Numeric parsing of a text cell: optional leading minus, a decimal
integer, optionally a dot and a fractional part (a simplified but faithful
model of the numeric conversion applied by the loader: a cell either parses
to a number or the conversion fails — it is never coerced to zero or NaN). -/
def parseNum (s : String) : Option ℚ :=
  let signed : Bool × List Char :=
    match s.data with
    | '-' :: rest => (true, rest)
    | cs => (false, cs)
  match splitDot signed.2 with
  | (ip, none) =>
    match digitsVal ip with
    | none => none
    | some n => some (if signed.1 then -(n : ℚ) else (n : ℚ))
  | (ip, some fp) =>
    match digitsVal ip, digitsVal fp with
    | some a, some b =>
      let q : ℚ := (a : ℚ) + (b : ℚ) / ((10 : ℚ) ^ fp.length)
      some (if signed.1 then -q else q)
    | _, _ => none

/-- Map over a list in the Option monad, explicit version. -/
def mapO {α β : Type} (f : α → Option β) : List α → Option (List β)
  | [] => some []
  | a :: l =>
    match f a with
    | none => none
    | some b =>
      match mapO f l with
      | none => none
      | some bs => some (b :: bs)

/-- A raw CSV file: the header line and the data rows, as strings. -/
structure RawTable where
  header : List String
  rows : List (List String)
  deriving DecidableEq, Repr

/-- pandas type inference for one column of raw cells: the column becomes
numeric when every cell parses as a number, and stays textual otherwise. -/
def inferColumn (cells : List String) : List Cell :=
  match mapO parseNum cells with
  | some qs => qs.map Cell.num
  | none => cells.map Cell.str

/-- pd.read_csv: each header name becomes a column whose cells are the
entries of that position in each row, with per-column type inference. -/
def readCsv (t : RawTable) : DataFrame :=
  ⟨t.header.enum.map (fun p =>
    (p.2, inferColumn (t.rows.map (fun r => r.getD p.1 ""))))⟩

/-- Loading of the food table: read the CSV and strip incidental whitespace
from the column headers (dados_alimentos.columns.str.strip()). -/
def lerAlimentos (raw : RawTable) : DataFrame :=
  ⟨(readCsv raw).cols.map (fun p => (p.1.trim, p.2))⟩

/-- The two key columns of the food table, excluded from numeric
conversion: the identifier and the display-only purchase-unit label. -/
def colunasChave : List String := ["ingrediente", "quantidade"]

/-- Numeric conversion of one cell, pd.to_numeric with errors=raise:
a numeric cell passes through, a text cell must parse or the conversion
raises; nothing is ever coerced to zero or NaN. -/
def toNumericE (c : Cell) : Except PyError ℚ :=
  match c with
  | .num q => .ok q
  | .str s =>
    match parseNum s with
    | some q => .ok q
    | none => .error (.valueError s)

/-- Numeric conversion of one named column: the key columns pass through
untouched, every other column is converted cell by cell. -/
def converterColuna (p : String × List Cell) : Except PyError (String × List Cell) :=
  if p.1 ∈ colunasChave then .ok p
  else
    match mapE toNumericE p.2 with
    | .error e => .error e
    | .ok qs => .ok (p.1, qs.map Cell.num)

/-- carregar_dados_csv: check that both files exist (FileNotFoundError
otherwise, before any parsing), read both tables, strip the food-table
headers, check the key columns are present (KeyError naming the missing
column otherwise), and convert every non-key food column to numeric. -/
def carregar_dados_csv (fs : String → Option RawTable)
    (nomeNutrientes nomeAlimentos : String) :
    Except PyError (DataFrame × DataFrame) :=
  match fs nomeNutrientes, fs nomeAlimentos with
  | some rawN, some rawA =>
    let dadosNutrientes := readCsv rawN
    let dadosAlimentos := lerAlimentos rawA
    if "ingrediente" ∈ colNames dadosAlimentos then
      if "quantidade" ∈ colNames dadosAlimentos then
        match mapE converterColuna dadosAlimentos.cols with
        | .error e => .error e
        | .ok cols => .ok (dadosNutrientes, ⟨cols⟩)
      else .error (.keyError "quantidade")
    else .error (.keyError "ingrediente")
  | _, _ =>
    .error (.fileNotFound
      "Um ou ambos os arquivos CSV nao foram encontrados. Certifique-se de que estao na mesma pasta do script.")

/-- The tolerance 1e-6 used by the reporter, both to filter negligible
purchase quantities and to absorb solver rounding in the nutrient audit. -/
def tol : ℚ := 1 / 1000000

/-- Dot product of two vectors, truncated at the shorter one. -/
def dot (u v : List ℚ) : ℚ :=
  (List.zipWith (fun a b => a * b) u v).sum

/-- Matrix-vector product, row by row (np.dot of a matrix and a vector). -/
def matVec (A : List (List ℚ)) (x : List ℚ) : List ℚ :=
  A.map (fun row => dot row x)

/-- The data of the standard-form LP built by the formulation step:
objective c, the name lists fixing the nutrient and food orders, and the
negated right-hand side b_ub and constraint matrix A_ub. -/
structure LPData where
  c : List ℚ
  nomesNutrientes : List String
  nomesAlimentos : List String
  b_ub : List ℚ
  A_ub : List (List ℚ)
  deriving DecidableEq, Repr

/-- The formulation step of resolver_problema_dieta_scipy (lines 47 to 58):
c is the preco column; the nutrient and food names come from the columns
nutrientes and ingrediente; b_ub is the negated minimo column; row i of
A_ub is the negated column of the food table named by nutrient i (the
transpose of selecting the nutrient columns). Any missing column raises
KeyError, exactly as pandas does — a missing nutrient is never read as
zero. -/
def formular (dn da : DataFrame) : Except PyError LPData :=
  match getNumColE da "preco" with
  | .error e => .error e
  | .ok c =>
    match getStrColE dn "nutrientes" with
    | .error e => .error e
    | .ok nomesNutrientes =>
      match getStrColE da "ingrediente" with
      | .error e => .error e
      | .ok nomesAlimentos =>
        match getNumColE dn "minimo" with
        | .error e => .error e
        | .ok minimos =>
          match mapE (fun n =>
              Except.map (fun col => col.map (fun v => -v)) (getNumColE da n))
              nomesNutrientes with
          | .error e => .error e
          | .ok A_ub =>
            .ok ⟨c, nomesNutrientes, nomesAlimentos,
                 minimos.map (fun m => -m), A_ub⟩

/-- Modelled from the spec: the result object of the external
scipy.optimize.linprog collaborator (section 4.3 of the specification and
the scipy contract the code relies on at lines 61 to 99): a status code
(0 optimal, 2 infeasible, anything else another failure), the solver
message, the solution vector x and the objective value. -/
structure SolverResult where
  status : ℕ
  message : String
  x : List ℚ
  objetivo : ℚ
  deriving DecidableEq, Repr

/-- Modelled from the spec: resultado.success of scipy.optimize.linprog is
true exactly when an optimal solution was found (status 0). -/
def SolverResult.success (r : SolverResult) : Bool :=
  r.status == 0

/-- One row of the purchased-foods table the reporter builds: the decision
index, the food name, the quantity bought and the display unit label. -/
structure Compra where
  idx : ℕ
  ingrediente : String
  quantidadeNecessaria : ℚ
  unidade : Cell
  deriving DecidableEq, Repr

/-- One line of the nutrient audit: name, achieved total, minimum, and the
satisfied flag. -/
structure Verificacao where
  nutriente : String
  consumido : ℚ
  minimo : ℚ
  atendido : Bool
  deriving DecidableEq, Repr

/-- The textual report, structured: either the optimal report with its
numeric content, or the distinct infeasibility message, or the generic
no-optimal-solution message carrying the solver status and message. -/
inductive Report where
  | otima (custoTotal : ℚ) (compras : List Compra) (verificacao : List Verificacao)
  | inviavel
  | semSolucao (status : ℕ) (message : String)
  deriving DecidableEq, Repr

/-- The purchased-foods loop (lines 69 to 79): for every index i of the
solution vector whose value exceeds 1e-6, look up the food name at i and
the quantidade cell of the first food-table row whose ingrediente equals
that name (df.loc followed by iloc[0], IndexError when no row matches). -/
def comprasAux (nomes : List String) (ings : List String) (quants : List Cell) :
    ℕ → List ℚ → Except PyError (List Compra)
  | _, [] => .ok []
  | i, valor :: rest =>
    if tol < valor then
      match nomes[i]? with
      | none => .error (.indexError "nomes_alimentos")
      | some nome =>
        match (List.zip ings quants).find? (fun p => p.1 == nome) with
        | none => .error (.indexError "iloc 0 em selecao vazia")
        | some p =>
          match comprasAux nomes ings quants (i + 1) rest with
          | .error e => .error e
          | .ok tail => .ok (⟨i, nome, valor, p.2⟩ :: tail)
    else comprasAux nomes ings quants (i + 1) rest

/-- The nutrient audit lines (lines 88 to 91): zip the nutrient names with
the recomputed consumption and the minimums; satisfied exactly when
consumido >= minimo - 1e-6. -/
def verificacaoDe : List String → List ℚ → List ℚ → List Verificacao
  | n :: ns, c :: cs, m :: ms =>
    ⟨n, c, m, decide (m - tol ≤ c)⟩ :: verificacaoDe ns cs ms
  | _, _, _ => []

/-- The reporting step of resolver_problema_dieta_scipy (lines 63 to 99):
on success build the purchases table and recompute the nutrient totals
from the un-negated matrix (consumido = (A_ub * -1) . x, minimo =
b_ub * -1); on status 2 emit the distinct infeasibility message; on any
other failure the generic message with the solver status and message. -/
def relatar (lp : LPData) (da : DataFrame) (resultado : SolverResult) :
    Except PyError Report :=
  if resultado.success then
    match getStrColE da "ingrediente" with
    | .error e => .error e
    | .ok ings =>
      match getColE da "quantidade" with
      | .error e => .error e
      | .ok quants =>
        match comprasAux lp.nomesAlimentos ings quants 0 resultado.x with
        | .error e => .error e
        | .ok compras =>
          let consumido :=
            matVec (lp.A_ub.map (fun row => row.map (fun v => -v))) resultado.x
          let minimo := lp.b_ub.map (fun v => -v)
          .ok (.otima resultado.objetivo compras
                (verificacaoDe lp.nomesNutrientes consumido minimo))
  else if resultado.status = 2 then .ok .inviavel
  else .ok (.semSolucao resultado.status resultado.message)

/-- The whole of resolver_problema_dieta_scipy, with the external solver
passed in as the opaque collaborator it is in the specification. -/
def resolver_problema_dieta_scipy
    (solver : List ℚ → List (List ℚ) → List ℚ → SolverResult)
    (dn da : DataFrame) : Except PyError Report :=
  match formular dn da with
  | .error e => .error e
  | .ok lp => relatar lp da (solver lp.c lp.A_ub lp.b_ub)

/-- The un-negated nutrients-by-foods content matrix of the data model
(LPModel in section 3 of the specification): row i, in nutrient order, is
the food-table column named by nutrient i, in food order. This is the
matrix the formulation step is claimed to negate. -/
def matrizConteudo (dn da : DataFrame) : Except PyError (List (List ℚ)) :=
  match getStrColE dn "nutrientes" with
  | .error e => .error e
  | .ok nomes => mapE (fun n => getNumColE da n) nomes

/-- A concrete nutrient table: one nutrient, prot, with minimum 10. -/
def dnW : DataFrame :=
  ⟨[("nutrientes", [Cell.str "prot"]), ("minimo", [Cell.num 10])]⟩

/-- A concrete food table: one food, arroz, sold by the kg at price 2,
providing 5 units of prot per unit bought. -/
def daW : DataFrame :=
  ⟨[("ingrediente", [Cell.str "arroz"]), ("quantidade", [Cell.str "kg"]),
    ("preco", [Cell.num 2]), ("prot", [Cell.num 5])]⟩

/-- The LP formulated from dnW and daW. -/
def lpW : LPData :=
  ⟨[2], ["prot"], ["arroz"], [-10], [[-5]]⟩

/-- An optimal solver result for lpW: buy 2 units of arroz at cost 4. -/
def rW : SolverResult :=
  ⟨0, "Optimization terminated successfully.", [2], 4⟩

/-- An infeasible solver result. -/
def rInv : SolverResult :=
  ⟨2, "The problem is infeasible.", [], 0⟩

/-- A nutrient table naming a nutrient, ferro, that daW does not list. -/
def dnBad : DataFrame :=
  ⟨[("nutrientes", [Cell.str "ferro"]), ("minimo", [Cell.num 1])]⟩

/-- A nutrient table using the column names of the specification claim,
nutrients and minimum, instead of the ones the program actually reads. -/
def dnEnglish : DataFrame :=
  ⟨[("nutrients", [Cell.str "prot"]), ("minimum", [Cell.num 10])]⟩

/-- The raw CSV behind dnW. -/
def rawNW : RawTable :=
  ⟨["nutrientes", "minimo"], [["prot", "10"]]⟩

/-- The raw CSV behind daW. -/
def rawAW : RawTable :=
  ⟨["ingrediente", "quantidade", "preco", "prot"], [["arroz", "kg", "2", "5"]]⟩

/-- A raw food CSV whose preco cell is not numeric. -/
def rawABad : RawTable :=
  ⟨["ingrediente", "quantidade", "preco", "prot"], [["arroz", "kg", "caro", "5"]]⟩

/-- A file system holding the two well-formed CSV files. -/
def fsW : String → Option RawTable := fun n =>
  if n = "nutrientes.csv" then some rawNW
  else if n = "ingrediente.csv" then some rawAW
  else none

/-- A file system whose food table has the non-numeric preco cell. -/
def fsBad : String → Option RawTable := fun n =>
  if n = "nutrientes.csv" then some rawNW
  else if n = "ingrediente.csv" then some rawABad
  else none

/-- The purchases the reporter builds from lpW, daW and rW. -/
def comprasW : List Compra := [⟨0, "arroz", 2, Cell.str "kg"⟩]

/-- The nutrient audit the reporter builds from lpW, daW and rW. -/
def verifW : List Verificacao := [⟨"prot", 10, 10, true⟩]

/-- The single audit line of verifW. -/
def vW : Verificacao := ⟨"prot", 10, 10, true⟩

theorem mapE_ok_mem_rev {α β : Type} (f : α → Except PyError β) :
    ∀ (l : List α) (l' : List β), mapE f l = .ok l' →
      ∀ b ∈ l', ∃ a ∈ l, f a = .ok b := by
  intro l
  induction l with
  | nil =>
    intro l' h b hb
    simp only [mapE, Except.ok.injEq] at h
    subst h
    simp at hb
  | cons a l ih =>
    intro l' h b hb
    simp only [mapE] at h
    cases hfa : f a with
    | error e => rw [hfa] at h; exact absurd h (by simp)
    | ok b0 =>
      rw [hfa] at h
      cases hml : mapE f l with
      | error e => rw [hml] at h; exact absurd h (by simp)
      | ok bs =>
        rw [hml] at h
        simp only [Except.ok.injEq] at h
        subst h
        rcases List.mem_cons.mp hb with hb0 | hbs
        · exact ⟨a, List.mem_cons_self a l, hb0 ▸ hfa⟩
        · obtain ⟨a1, ha1, hfa1⟩ := ih bs hml b hbs
          exact ⟨a1, List.mem_cons_of_mem a ha1, hfa1⟩

theorem mapE_ok_forall {α β : Type} (f : α → Except PyError β) :
    ∀ (l : List α) (l' : List β), mapE f l = .ok l' →
      ∀ a ∈ l, ∃ b, f a = .ok b := by
  intro l
  induction l with
  | nil => intro l' _ a ha; simp at ha
  | cons a0 l ih =>
    intro l' h a ha
    simp only [mapE] at h
    cases hfa : f a0 with
    | error e => rw [hfa] at h; exact absurd h (by simp)
    | ok b0 =>
      rw [hfa] at h
      cases hml : mapE f l with
      | error e => rw [hml] at h; exact absurd h (by simp)
      | ok bs =>
        rcases List.mem_cons.mp ha with h0 | hmem
        · exact ⟨b0, h0 ▸ hfa⟩
        · exact ih bs hml a hmem

theorem mapE_map {α β γ : Type} (g : α → Except PyError β) (h : β → γ) :
    ∀ l : List α,
      mapE (fun a => Except.map h (g a)) l =
        Except.map (List.map h) (mapE g l) := by
  intro l
  induction l with
  | nil => simp [mapE, Except.map]
  | cons a l ih =>
    simp only [mapE, ih]
    cases hga : g a with
    | error e => simp [Except.map]
    | ok b =>
      cases hml : mapE g l with
      | error e => simp [Except.map]
      | ok bs => simp [Except.map]

theorem mapE_dichotomy {α β : Type} (P : PyError → Prop)
    (f : α → Except PyError β) :
    ∀ l : List α,
      (∀ a ∈ l, (∃ b, f a = .ok b) ∨ ∃ e, f a = .error e ∧ P e) →
      (∃ bs, mapE f l = .ok bs) ∨ ∃ e, mapE f l = .error e ∧ P e := by
  intro l
  induction l with
  | nil => intro _; exact Or.inl ⟨[], rfl⟩
  | cons a l ih =>
    intro hall
    rcases hall a (List.mem_cons_self a l) with ⟨b, hb⟩ | ⟨e, he, hPe⟩
    · rcases ih (fun x hx => hall x (List.mem_cons_of_mem a hx)) with
        ⟨bs, hbs⟩ | ⟨e, he, hPe⟩
      · exact Or.inl ⟨b :: bs, by simp [mapE, hb, hbs]⟩
      · exact Or.inr ⟨e, by simp [mapE, hb, he], hPe⟩
    · exact Or.inr ⟨e, by simp [mapE, he], hPe⟩

theorem mapE_error_of_exists {α β : Type} (P : PyError → Prop)
    (f : α → Except PyError β) (l : List α)
    (hall : ∀ a ∈ l, (∃ b, f a = .ok b) ∨ ∃ e, f a = .error e ∧ P e)
    (hex : ∃ a ∈ l, ∀ b, f a ≠ .ok b) :
    ∃ e, mapE f l = .error e ∧ P e := by
  rcases mapE_dichotomy P f l hall with ⟨bs, hbs⟩ | hres
  · obtain ⟨a, ha, hne⟩ := hex
    obtain ⟨b, hb⟩ := mapE_ok_forall f l bs hbs a ha
    exact absurd hb (hne b)
  · exact hres

theorem dot_neg_left (u v : List ℚ) :
    dot (u.map (fun a => -a)) v = -dot u v := by
  induction u generalizing v with
  | nil => simp [dot]
  | cons a u ih =>
    cases v with
    | nil => simp [dot]
    | cons b v =>
      simp only [List.map_cons, dot, List.zipWith_cons_cons, List.sum_cons]
      have := ih v
      simp only [dot] at this
      rw [this]
      ring

theorem matVec_neg (A : List (List ℚ)) (x : List ℚ) :
    matVec (A.map (fun row => row.map (fun v => -v))) x =
      (matVec A x).map (fun v => -v) := by
  simp only [matVec, List.map_map]
  exact List.map_congr_left (fun row _ => dot_neg_left row x)

theorem verificacaoDe_mem :
    ∀ (ns : List String) (cs ms : List ℚ) (v : Verificacao),
      v ∈ verificacaoDe ns cs ms →
      v.atendido = decide (v.minimo - tol ≤ v.consumido) := by
  intro ns
  induction ns with
  | nil => intro cs ms v hv; simp [verificacaoDe] at hv
  | cons n ns ih =>
    intro cs ms v hv
    cases cs with
    | nil => simp [verificacaoDe] at hv
    | cons c cs =>
      cases ms with
      | nil => simp [verificacaoDe] at hv
      | cons m ms =>
        simp only [verificacaoDe, List.mem_cons] at hv
        rcases hv with hv | hv
        · subst hv; rfl
        · exact ih cs ms v hv

theorem verificacaoDe_get_consumido :
    ∀ (ns : List String) (cs ms : List ℚ) (i : ℕ)
      (h : i < (verificacaoDe ns cs ms).length),
      ∃ h2 : i < cs.length,
        ((verificacaoDe ns cs ms).get ⟨i, h⟩).consumido = cs.get ⟨i, h2⟩ := by
  intro ns
  induction ns with
  | nil => intro cs ms i h; simp [verificacaoDe] at h
  | cons n ns ih =>
    intro cs ms i h
    cases cs with
    | nil => simp [verificacaoDe] at h
    | cons c cs =>
      cases ms with
      | nil => simp [verificacaoDe] at h
      | cons m ms =>
        cases i with
        | zero => exact ⟨Nat.succ_pos _, rfl⟩
        | succ i =>
          have h' : i < (verificacaoDe ns cs ms).length := by
            simpa [verificacaoDe] using h
          obtain ⟨h2, he⟩ := ih cs ms i h'
          exact ⟨Nat.succ_lt_succ h2, he⟩

theorem comprasAux_idx_iff (nomes ings : List String) (quants : List Cell) :
    ∀ (xs : List ℚ) (i : ℕ) (l : List Compra),
      comprasAux nomes ings quants i xs = .ok l →
      ∀ j : ℕ, (∃ e ∈ l, e.idx = j) ↔
        ∃ k, ∃ hk : k < xs.length, j = i + k ∧ tol < xs.get ⟨k, hk⟩ := by
  intro xs
  induction xs with
  | nil =>
    intro i l h j
    simp only [comprasAux, Except.ok.injEq] at h
    subst h
    simp
  | cons v rest ih =>
    intro i l h j
    simp only [comprasAux] at h
    by_cases hv : tol < v
    · rw [if_pos hv] at h
      cases hn : nomes[i]? with
      | none => rw [hn] at h; exact absurd h (by simp)
      | some nome =>
        simp only [hn] at h
        cases hf : (List.zip ings quants).find? (fun p => p.1 == nome) with
        | none => simp only [hf] at h; exact absurd h (by simp)
        | some p =>
          simp only [hf] at h
          cases hrec : comprasAux nomes ings quants (i + 1) rest with
          | error e => simp only [hrec] at h; exact absurd h (by simp)
          | ok tail =>
            simp only [hrec] at h
            simp only [Except.ok.injEq] at h
            subst h
            constructor
            · rintro ⟨e, he, hej⟩
              rcases List.mem_cons.mp he with he0 | he
              · subst he0
                exact ⟨0, Nat.succ_pos _, by simpa using hej.symm, by simpa using hv⟩
              · obtain ⟨k, hk, hjk, hkt⟩ := (ih (i + 1) tail hrec j).mp ⟨e, he, hej⟩
                exact ⟨k + 1, Nat.succ_lt_succ hk, by omega, by simpa using hkt⟩
            · rintro ⟨k, hk, hjk, hkt⟩
              cases k with
              | zero =>
                refine ⟨⟨i, nome, v, p.2⟩, List.mem_cons_self _ _, ?_⟩
                simpa using hjk.symm
              | succ k =>
                have hmem : ∃ e ∈ tail, e.idx = j := by
                  refine (ih (i + 1) tail hrec j).mpr
                    ⟨k, Nat.lt_of_succ_lt_succ hk, by omega, ?_⟩
                  simpa using hkt
                obtain ⟨e, he, hej⟩ := hmem
                exact ⟨e, List.mem_cons_of_mem _ he, hej⟩
    · rw [if_neg hv] at h
      rw [ih (i + 1) l h j]
      constructor
      · rintro ⟨k, hk, hjk, hkt⟩
        exact ⟨k + 1, Nat.succ_lt_succ hk, by omega, by simpa using hkt⟩
      · rintro ⟨k, hk, hjk, hkt⟩
        cases k with
        | zero => exact absurd (by simpa using hkt) hv
        | succ k =>
          exact ⟨k, Nat.lt_of_succ_lt_succ hk, by omega, by simpa using hkt⟩

theorem comprasAux_elem_spec (nomes ings : List String) (quants : List Cell) :
    ∀ (xs : List ℚ) (i : ℕ) (l : List Compra),
      comprasAux nomes ings quants i xs = .ok l →
      ∀ e ∈ l,
        (∃ h : e.idx < nomes.length, e.ingrediente = nomes.get ⟨e.idx, h⟩) ∧
        ∃ p, (List.zip ings quants).find? (fun q => q.1 == e.ingrediente) = some p ∧
          e.unidade = p.2 := by
  intro xs
  induction xs with
  | nil =>
    intro i l h e he
    simp only [comprasAux, Except.ok.injEq] at h
    subst h
    simp at he
  | cons v rest ih =>
    intro i l h e he
    simp only [comprasAux] at h
    by_cases hv : tol < v
    · rw [if_pos hv] at h
      cases hn : nomes[i]? with
      | none => rw [hn] at h; exact absurd h (by simp)
      | some nome =>
        simp only [hn] at h
        cases hf : (List.zip ings quants).find? (fun p => p.1 == nome) with
        | none => simp only [hf] at h; exact absurd h (by simp)
        | some p =>
          simp only [hf] at h
          cases hrec : comprasAux nomes ings quants (i + 1) rest with
          | error e0 => simp only [hrec] at h; exact absurd h (by simp)
          | ok tail =>
            simp only [hrec] at h
            simp only [Except.ok.injEq] at h
            subst h
            rcases List.mem_cons.mp he with he0 | he
            · subst he0
              obtain ⟨hlt, hget⟩ := List.getElem?_eq_some.mp hn
              refine ⟨⟨hlt, ?_⟩, p, ?_, rfl⟩
              · simp [← hget]
              · simpa using hf
            · exact ih (i + 1) tail hrec e he
    · rw [if_neg hv] at h
      exact ih (i + 1) l h e he

theorem find_zip_nodup :
    ∀ (ings : List String) (quants : List Cell) (j : ℕ)
      (hj : j < ings.length), ings.Nodup →
      ∀ p : String × Cell,
        (List.zip ings quants).find? (fun q => q.1 == ings.get ⟨j, hj⟩) = some p →
        ∃ hq : j < quants.length, p = (ings.get ⟨j, hj⟩, quants.get ⟨j, hq⟩) := by
  intro ings
  induction ings with
  | nil => intro quants j hj; simp at hj
  | cons a as ih =>
    intro quants j hj hnd p hp
    cases quants with
    | nil => simp at hp
    | cons q qs =>
      cases j with
      | zero =>
        simp only [List.zip_cons_cons, List.get_cons_zero] at hp ⊢
        rw [List.find?_cons_of_pos _ (by simp)] at hp
        simp only [Option.some.injEq] at hp
        exact ⟨Nat.succ_pos _, hp.symm⟩
      | succ j =>
        have hj' : j < as.length := Nat.lt_of_succ_lt_succ hj
        have hne : ¬(a = as.get ⟨j, hj'⟩) := by
          intro hcontra
          exact (List.nodup_cons.mp hnd).1 (hcontra ▸ List.get_mem as j hj')
        simp only [List.zip_cons_cons, List.get_cons_succ] at hp ⊢
        rw [List.find?_cons_of_neg _ (by simpa using hne)] at hp
        obtain ⟨hq, hpe⟩ := ih qs j hj' (List.nodup_cons.mp hnd).2 p hp
        exact ⟨Nat.succ_lt_succ hq, hpe⟩

theorem formular_inv (dn da : DataFrame) (lp : LPData)
    (h : formular dn da = .ok lp) :
    getNumColE da "preco" = .ok lp.c ∧
    getStrColE dn "nutrientes" = .ok lp.nomesNutrientes ∧
    getStrColE da "ingrediente" = .ok lp.nomesAlimentos ∧
    (∃ minimos, getNumColE dn "minimo" = .ok minimos ∧
       lp.b_ub = minimos.map (fun m => -m)) ∧
    ∃ M, mapE (fun n => getNumColE da n) lp.nomesNutrientes = .ok M ∧
      lp.A_ub = M.map (fun row => row.map (fun v => -v)) := by
  cases h1 : getNumColE da "preco" with
  | error e => simp only [formular, h1] at h; exact absurd h (by simp)
  | ok c =>
    cases h2 : getStrColE dn "nutrientes" with
    | error e => simp only [formular, h1, h2] at h; exact absurd h (by simp)
    | ok nomes =>
      cases h3 : getStrColE da "ingrediente" with
      | error e => simp only [formular, h1, h2, h3] at h; exact absurd h (by simp)
      | ok ings =>
        cases h4 : getNumColE dn "minimo" with
        | error e =>
          simp only [formular, h1, h2, h3, h4] at h; exact absurd h (by simp)
        | ok minimos =>
          cases h5 : mapE (fun n =>
              Except.map (fun col => col.map (fun v => -v)) (getNumColE da n))
              nomes with
          | error e =>
            simp only [formular, h1, h2, h3, h4, h5] at h; exact absurd h (by simp)
          | ok A =>
            simp only [formular, h1, h2, h3, h4, h5, Except.ok.injEq] at h
            subst h
            rw [mapE_map (fun n => getNumColE da n)
              (fun col => col.map (fun v => -v)) nomes] at h5
            cases h6 : mapE (fun n => getNumColE da n) nomes with
            | error e => rw [h6] at h5; exact absurd h5 (by simp [Except.map])
            | ok M =>
              rw [h6] at h5
              simp only [Except.map, Except.ok.injEq] at h5
              exact ⟨rfl, rfl, rfl, ⟨minimos, rfl, rfl⟩, M, rfl, h5.symm⟩

theorem relatar_otima_inv (lp : LPData) (da : DataFrame) (r : SolverResult)
    (custo : ℚ) (compras : List Compra) (verif : List Verificacao)
    (h : relatar lp da r = .ok (.otima custo compras verif)) :
    r.success = true ∧ custo = r.objetivo ∧
    ∃ ings quants,
      getStrColE da "ingrediente" = .ok ings ∧
      getColE da "quantidade" = .ok quants ∧
      comprasAux lp.nomesAlimentos ings quants 0 r.x = .ok compras ∧
      verif = verificacaoDe lp.nomesNutrientes
        (matVec (lp.A_ub.map (fun row => row.map (fun v => -v))) r.x)
        (lp.b_ub.map (fun v => -v)) := by
  by_cases hs : r.success = true
  · cases h1 : getStrColE da "ingrediente" with
    | error e => simp [relatar, hs, h1] at h
    | ok ings =>
      cases h2 : getColE da "quantidade" with
      | error e => simp [relatar, hs, h1, h2] at h
      | ok quants =>
        cases h3 : comprasAux lp.nomesAlimentos ings quants 0 r.x with
        | error e => simp [relatar, hs, h1, h2, h3] at h
        | ok compras0 =>
          simp only [relatar, hs, if_true, h1, h2, h3, Except.ok.injEq,
            Report.otima.injEq] at h
          obtain ⟨hc, hcp, hv⟩ := h
          subst hcp
          exact ⟨hs, hc.symm, ings, quants, rfl, rfl, h3, hv.symm⟩
  · rcases eq_or_ne r.status 2 with h2 | h2 <;> simp [relatar, hs, h2] at h

theorem toNumericE_dichotomy (c : Cell) :
    (∃ b, toNumericE c = .ok b) ∨
      ∃ e, toNumericE c = .error e ∧ ∃ m, e = .valueError m := by
  cases c with
  | num q => exact Or.inl ⟨q, rfl⟩
  | str s =>
    cases hps : parseNum s with
    | none => exact Or.inr ⟨.valueError s, by simp [toNumericE, hps], s, rfl⟩
    | some q => exact Or.inl ⟨q, by simp [toNumericE, hps]⟩

/-- C1: For every valid nutrient table and food table (validity meaning
the formulation succeeds, every referenced column being present and
numeric), the formulated LP has A_std (A_ub) equal to the elementwise
negation of the nutrients-by-foods content matrix — rows in nutrient order,
columns in food order — and b_std (b_ub) equal to the elementwise negation
of the minimum-requirements vector, exactly. -/
theorem c1_formulacao_negada (dn da : DataFrame) (lp : LPData)
    (h : formular dn da = .ok lp) :
    ∃ M minimos,
      matrizConteudo dn da = .ok M ∧
      getNumColE dn "minimo" = .ok minimos ∧
      lp.A_ub = M.map (fun row => row.map (fun v => -v)) ∧
      lp.b_ub = minimos.map (fun m => -m) := by
  obtain ⟨hc, hn, hi, ⟨minimos, hm, hb⟩, M, hM, hA⟩ := formular_inv dn da lp h
  exact ⟨M, minimos, by simp [matrizConteudo, hn, hM], hm, hA, hb⟩

/-- C1 witness: the concrete tables dnW and daW formulate to lpW, whose
A_ub is the negated content matrix [[5]] and whose b_ub negates [10]. -/
theorem c1_formulacao_negada_witness :
    ∃ M minimos,
      matrizConteudo dnW daW = .ok M ∧
      getNumColE dnW "minimo" = .ok minimos ∧
      lpW.A_ub = M.map (fun row => row.map (fun v => -v)) ∧
      lpW.b_ub = minimos.map (fun m => -m) :=
  c1_formulacao_negada dnW daW lpW (by decide)

/-- C3: for every input where some nutrient name from the nutrient table
is absent from the food-table columns (and the remaining reads are
well-formed), formulation raises a KeyError — a structural error — and
never returns an LP, so a missing nutrient is never substituted by zero. -/
theorem c3_nutriente_ausente_erro (dn da : DataFrame)
    (nomes : List String) (n : String)
    (h1 : getStrColE dn "nutrientes" = .ok nomes)
    (h2 : n ∈ nomes)
    (h3 : da.getCol n = none)
    (hpreco : ∃ c, getNumColE da "preco" = .ok c)
    (hing : ∃ ings, getStrColE da "ingrediente" = .ok ings)
    (hmin : ∃ ms, getNumColE dn "minimo" = .ok ms)
    (hnum : ∀ m ∈ nomes,
      (∃ col, getNumColE da m = .ok col) ∨ da.getCol m = none) :
    (∃ msg, formular dn da = .error (.keyError msg)) ∧
      ∀ lp, formular dn da ≠ .ok lp := by
  obtain ⟨c, hc⟩ := hpreco
  obtain ⟨ings, hi⟩ := hing
  obtain ⟨ms, hm⟩ := hmin
  have hgn : getNumColE da n = .error (.keyError n) := by
    simp [getNumColE, getColE, h3]
  have herr : ∃ e, mapE (fun n0 =>
      Except.map (fun col => col.map (fun v => -v)) (getNumColE da n0)) nomes =
        .error e ∧ ∃ msg, e = .keyError msg := by
    apply mapE_error_of_exists
    · intro m hmem
      rcases hnum m hmem with ⟨col, hcol⟩ | hnone
      · exact Or.inl ⟨col.map (fun v => -v), by simp [hcol, Except.map]⟩
      · refine Or.inr ⟨.keyError m, ?_, m, rfl⟩
        simp [getNumColE, getColE, hnone, Except.map]
    · refine ⟨n, h2, ?_⟩
      intro b hb
      rw [hgn] at hb
      simp [Except.map] at hb
  obtain ⟨e, he, msg, hemsg⟩ := herr
  subst hemsg
  have hres : formular dn da = .error (.keyError msg) := by
    simp [formular, hc, h1, hi, hm, he]
  refine ⟨⟨msg, hres⟩, ?_⟩
  intro lp hlp
  rw [hres] at hlp
  exact absurd hlp (by simp)

/-- C3 witness: dnBad references the nutrient ferro, which daW does not
list as a column; the formulation errors with a KeyError. -/
theorem c3_nutriente_ausente_erro_witness :
    (∃ msg, formular dnBad daW = .error (.keyError msg)) ∧
      ∀ lp, formular dnBad daW ≠ .ok lp :=
  c3_nutriente_ausente_erro dnBad daW ["ferro"] "ferro" (by decide) (by decide)
    (by decide) ⟨[2], by decide⟩ ⟨["arroz"], by decide⟩ ⟨[1], by decide⟩
    (by
      intro m hm
      have hm0 : m = "ferro" := by simpa using hm
      subst hm0
      exact Or.inr (by decide))

/-- C7 counterexample: the claim says the program reads nutrient names from
a column named nutrients and minimums from a column named minimum; on a
nutrient table offering exactly those columns, with well-formed data, the
formulation fails with KeyError nutrientes, while the same data under the
columns nutrientes and minimo succeeds — so the program reads the
Portuguese column names, not the ones the claim states. -/
theorem c7_contraexemplo :
    formular dnEnglish daW = .error (.keyError "nutrientes") ∧
      formular dnW daW = .ok lpW := by
  decide

/-- C7 amended: the program reads the nutrient names from the NutrientTable
column named nutrientes and the minimum daily requirements from the column
named minimo. -/
theorem c7_colunas_nutrientes_minimo (dn da : DataFrame) (lp : LPData)
    (h : formular dn da = .ok lp) :
    getStrColE dn "nutrientes" = .ok lp.nomesNutrientes ∧
    ∃ minimos, getNumColE dn "minimo" = .ok minimos ∧
      lp.b_ub = minimos.map (fun m => -m) := by
  obtain ⟨hc, hn, hi, hmins, _⟩ := formular_inv dn da lp h
  exact ⟨hn, hmins⟩

/-- C7 amended witness at the concrete tables dnW and daW. -/
theorem c7_colunas_nutrientes_minimo_witness :
    getStrColE dnW "nutrientes" = .ok lpW.nomesNutrientes ∧
    ∃ minimos, getNumColE dnW "minimo" = .ok minimos ∧
      lpW.b_ub = minimos.map (fun m => -m) :=
  c7_colunas_nutrientes_minimo dnW daW lpW (by decide)

/-- C2: for every optimal solution x, the achieved nutrient totals
recomputed by the reporter (consumido, computed from the un-negated
matrix A_ub * -1) equal the negation of A_std times x, componentwise
within 1e-6 — in the exact arithmetic of this embedding they are equal
outright, so the bound holds. -/
theorem c2_consumo_recomputado (lp : LPData) (da : DataFrame)
    (r : SolverResult) (custo : ℚ) (compras : List Compra)
    (verif : List Verificacao)
    (h : relatar lp da r = .ok (.otima custo compras verif)) :
    ∀ i : ℕ, ∀ hi : i < verif.length,
      ∀ hj : i < (matVec lp.A_ub r.x).length,
      |(verif.get ⟨i, hi⟩).consumido -
        (-((matVec lp.A_ub r.x).get ⟨i, hj⟩))| ≤ tol := by
  obtain ⟨hs, hco, ings, quants, h1, h2, h3, hv⟩ :=
    relatar_otima_inv lp da r custo compras verif h
  subst hv
  intro i hi hj
  obtain ⟨h2c, hcons⟩ := verificacaoDe_get_consumido lp.nomesNutrientes _ _ i hi
  rw [hcons]
  have hc2 : (matVec (lp.A_ub.map (fun row => row.map (fun v => -v)))
      r.x).get ⟨i, h2c⟩ = -((matVec lp.A_ub r.x).get ⟨i, hj⟩) := by
    simp only [List.get_eq_getElem]
    simp only [matVec_neg lp.A_ub r.x, List.getElem_map]
  rw [hc2]
  simp [tol]

/-- C2 witness at the concrete optimal run of lpW, daW and rW, component
zero. -/
theorem c2_consumo_recomputado_witness :
    |(verifW.get ⟨0, by decide⟩).consumido -
      (-((matVec lpW.A_ub rW.x).get ⟨0, by decide⟩))| ≤ tol :=
  c2_consumo_recomputado lpW daW rW 4 comprasW verifW
    (by with_unfolding_all decide) 0 (by decide) (by decide)

/-- C4: whenever the solver status is not optimal (status 0), no numeric
diet report is produced: status 2 yields the distinct infeasibility
message, and any other non-optimal status yields the generic message
carrying the solver status code and message. -/
theorem c4_sem_otimo_sem_numerico (lp : LPData) (da : DataFrame)
    (r : SolverResult) (h : r.status ≠ 0) :
    (r.status = 2 → relatar lp da r = .ok .inviavel) ∧
    (r.status ≠ 2 → relatar lp da r = .ok (.semSolucao r.status r.message)) ∧
    ∀ custo compras verif,
      relatar lp da r ≠ .ok (.otima custo compras verif) := by
  have hs : r.success = false := beq_eq_false_iff_ne.mpr h
  refine ⟨?_, ?_, ?_⟩
  · intro h2; simp [relatar, hs, h2]
  · intro h2; simp [relatar, hs, h2]
  · intro custo compras verif hcontra
    rcases eq_or_ne r.status 2 with h2 | h2
    · simp [relatar, hs, h2] at hcontra
    · simp [relatar, hs, h2] at hcontra

/-- C4 witness: the infeasible result rInv produces the distinct
infeasibility message and no numeric report. -/
theorem c4_sem_otimo_sem_numerico_witness :
    (rInv.status = 2 → relatar lpW daW rInv = .ok .inviavel) ∧
    (rInv.status ≠ 2 →
      relatar lpW daW rInv = .ok (.semSolucao rInv.status rInv.message)) ∧
    ∀ custo compras verif,
      relatar lpW daW rInv ≠ .ok (.otima custo compras verif) :=
  c4_sem_otimo_sem_numerico lpW daW rInv (by decide)

/-- C5: in an optimal report every audit line is tagged satisfied exactly
when consumido >= minimo - 1e-6; at consumido = minimo - 1e-6 exactly the
tag is satisfied, and any strictly smaller consumido is tagged failed. -/
theorem c5_fronteira_atendido (lp : LPData) (da : DataFrame)
    (r : SolverResult) (custo : ℚ) (compras : List Compra)
    (verif : List Verificacao)
    (h : relatar lp da r = .ok (.otima custo compras verif)) :
    ∀ v ∈ verif,
      (v.atendido = true ↔ v.minimo - tol ≤ v.consumido) ∧
      (v.consumido = v.minimo - tol → v.atendido = true) ∧
      (v.consumido < v.minimo - tol → v.atendido = false) := by
  obtain ⟨hs, hco, ings, quants, h1, h2, h3, hv⟩ :=
    relatar_otima_inv lp da r custo compras verif h
  intro v hvm
  rw [hv] at hvm
  have hat := verificacaoDe_mem _ _ _ v hvm
  refine ⟨?_, ?_, ?_⟩
  · simp [hat]
  · intro he; rw [hat]; simp [he]
  · intro hlt
    rw [hat]
    simp only [decide_eq_false_iff_not, not_le]
    exact hlt

/-- C5 witness: the audit line of the concrete optimal run, where
consumido 10 meets minimo 10, is tagged satisfied. -/
theorem c5_fronteira_atendido_witness :
    (vW.atendido = true ↔ vW.minimo - tol ≤ vW.consumido) ∧
    (vW.consumido = vW.minimo - tol → vW.atendido = true) ∧
    (vW.consumido < vW.minimo - tol → vW.atendido = false) :=
  c5_fronteira_atendido lpW daW rW 4 comprasW verifW
    (by with_unfolding_all decide) vW (by decide)

/-- C6: in an optimal report, food index j appears in the purchased list
exactly when x[j] > 1e-6, a strict comparison: a quantity equal to 1e-6
is omitted and any strictly larger quantity is included. -/
theorem c6_limiar_compra (lp : LPData) (da : DataFrame)
    (r : SolverResult) (custo : ℚ) (compras : List Compra)
    (verif : List Verificacao)
    (h : relatar lp da r = .ok (.otima custo compras verif)) :
    ∀ j : ℕ, (∃ e ∈ compras, e.idx = j) ↔
      ∃ hj : j < r.x.length, tol < r.x.get ⟨j, hj⟩ := by
  obtain ⟨hs, hco, ings, quants, h1, h2, h3, hv⟩ :=
    relatar_otima_inv lp da r custo compras verif h
  intro j
  rw [comprasAux_idx_iff lp.nomesAlimentos ings quants r.x 0 compras h3 j]
  constructor
  · rintro ⟨k, hk, hjk, hkt⟩
    have hjeq : j = k := by omega
    subst hjeq
    exact ⟨hk, hkt⟩
  · rintro ⟨hj, hjt⟩
    exact ⟨j, hj, by omega, hjt⟩

/-- C6 witness: index 0 is purchased in the concrete optimal run exactly
because x[0] = 2 exceeds the 1e-6 threshold. -/
theorem c6_limiar_compra_witness :
    (∃ e ∈ comprasW, e.idx = 0) ↔
      ∃ hj : 0 < rW.x.length, tol < rW.x.get ⟨0, hj⟩ :=
  c6_limiar_compra lpW daW rW 4 comprasW verifW
    (by with_unfolding_all decide) 0

/-- C10: in an optimal report, the purchase-unit label of every purchased
entry is the quantidade cell of the first food-table row whose ingrediente
equals the entry's food name; when the food names are unique this is row
idx's own label. -/
theorem c10_unidade_primeira_linha (dn da : DataFrame) (lp : LPData)
    (r : SolverResult) (custo : ℚ) (compras : List Compra)
    (verif : List Verificacao)
    (hf : formular dn da = .ok lp)
    (h : relatar lp da r = .ok (.otima custo compras verif)) :
    ∃ ings quants,
      getStrColE da "ingrediente" = .ok ings ∧
      getColE da "quantidade" = .ok quants ∧
      ∀ e ∈ compras,
        (∃ p, (List.zip ings quants).find?
            (fun q => q.1 == e.ingrediente) = some p ∧ e.unidade = p.2) ∧
        (ings.Nodup → ∃ hq : e.idx < quants.length,
          e.unidade = quants.get ⟨e.idx, hq⟩) := by
  obtain ⟨hs, hco, ings, quants, h1, h2, h3, hv⟩ :=
    relatar_otima_inv lp da r custo compras verif h
  obtain ⟨hcf, hn, hi, hmins, hM⟩ := formular_inv dn da lp hf
  have hna : lp.nomesAlimentos = ings := by
    rw [hi] at h1
    exact (Except.ok.injEq _ _).mp h1
  subst hna
  refine ⟨lp.nomesAlimentos, quants, h1, h2, ?_⟩
  intro e he
  obtain ⟨⟨hidx, hing⟩, p, hp, hu⟩ :=
    comprasAux_elem_spec lp.nomesAlimentos lp.nomesAlimentos quants
      r.x 0 compras h3 e he
  refine ⟨⟨p, hp, hu⟩, ?_⟩
  intro hnd
  rw [hing] at hp
  obtain ⟨hq, hpe⟩ :=
    find_zip_nodup lp.nomesAlimentos quants e.idx hidx hnd p hp
  exact ⟨hq, by rw [hu, hpe]⟩

/-- C10 witness at the concrete optimal run: the entry for arroz carries
the kg label of the first (and only) matching row. -/
theorem c10_unidade_primeira_linha_witness :
    ∃ ings quants,
      getStrColE daW "ingrediente" = .ok ings ∧
      getColE daW "quantidade" = .ok quants ∧
      ∀ e ∈ comprasW,
        (∃ p, (List.zip ings quants).find?
            (fun q => q.1 == e.ingrediente) = some p ∧ e.unidade = p.2) ∧
        (ings.Nodup → ∃ hq : e.idx < quants.length,
          e.unidade = quants.get ⟨e.idx, hq⟩) :=
  c10_unidade_primeira_linha dnW daW lpW rW 4 comprasW verifW
    (by decide) (by with_unfolding_all decide)

/-- C8: for every food-table input, every column other than the identifier
ingrediente and the display-only quantidade is converted to numeric (first
conjunct: a successfully loaded food table holds only numeric cells in the
non-key columns), and any cell of those columns that fails numeric parsing
makes the loader raise (second conjunct: a ValueError, never a coercion to
zero or NaN). -/
theorem c8_conversao_numerica :
    (∀ (fs : String → Option RawTable) (nN nA : String) (dn da : DataFrame),
      carregar_dados_csv fs nN nA = .ok (dn, da) →
      ∀ p ∈ da.cols, p.1 ∉ colunasChave → ∀ c ∈ p.2, ∃ q, c = Cell.num q) ∧
    (∀ (fs : String → Option RawTable) (nN nA : String) (rawN rawA : RawTable),
      fs nN = some rawN → fs nA = some rawA →
      "ingrediente" ∈ colNames (lerAlimentos rawA) →
      "quantidade" ∈ colNames (lerAlimentos rawA) →
      (∃ p ∈ (lerAlimentos rawA).cols, p.1 ∉ colunasChave ∧
        ∃ c ∈ p.2, ∃ s, c = Cell.str s ∧ parseNum s = none) →
      ∃ msg, carregar_dados_csv fs nN nA = .error (.valueError msg)) := by
  constructor
  · intro fs nN nA dn da hok p hp hpk c hc
    cases hfn : fs nN with
    | none =>
      cases hfa : fs nA with
      | none => simp [carregar_dados_csv, hfn, hfa] at hok
      | some rawA => simp [carregar_dados_csv, hfn, hfa] at hok
    | some rawN =>
      cases hfa : fs nA with
      | none => simp [carregar_dados_csv, hfn, hfa] at hok
      | some rawA =>
        by_cases hi : "ingrediente" ∈ colNames (lerAlimentos rawA)
        · by_cases hq : "quantidade" ∈ colNames (lerAlimentos rawA)
          · cases hconv : mapE converterColuna (lerAlimentos rawA).cols with
            | error e =>
              simp [carregar_dados_csv, hfn, hfa, hi, hq, hconv] at hok
            | ok cols0 =>
              simp only [carregar_dados_csv, hfn, hfa, hi, hq, if_true,
                hconv, Except.ok.injEq, Prod.mk.injEq] at hok
              obtain ⟨hdn, hda⟩ := hok
              rw [← hda] at hp
              obtain ⟨a, ha, hca⟩ :=
                mapE_ok_mem_rev converterColuna _ cols0 hconv p hp
              by_cases hak : a.1 ∈ colunasChave
              · rw [converterColuna, if_pos hak] at hca
                have hap : a = p := by simpa using hca
                exact absurd (hap ▸ hak) hpk
              · rw [converterColuna, if_neg hak] at hca
                cases hmE : mapE toNumericE a.2 with
                | error e => rw [hmE] at hca; exact absurd hca (by simp)
                | ok qs =>
                  rw [hmE] at hca
                  have hp2 : p = (a.1, qs.map Cell.num) := by
                    simpa using hca.symm
                  rw [hp2] at hc
                  obtain ⟨q, hq2, hcq⟩ := List.mem_map.mp hc
                  exact ⟨q, hcq.symm⟩
          · simp [carregar_dados_csv, hfn, hfa, hi, hq] at hok
        · simp [carregar_dados_csv, hfn, hfa, hi] at hok
  · intro fs nN nA rawN rawA hfn hfa hi hq hex
    obtain ⟨p, hp, hpk, c, hc, s, hcs, hps⟩ := hex
    have herr : ∃ e, mapE converterColuna (lerAlimentos rawA).cols =
        .error e ∧ ∃ m, e = .valueError m := by
      apply mapE_error_of_exists
      · intro a ha
        by_cases hak : a.1 ∈ colunasChave
        · exact Or.inl ⟨a, by simp [converterColuna, hak]⟩
        · rcases mapE_dichotomy (fun e => ∃ m, e = .valueError m) toNumericE
            a.2 (fun c0 _ => toNumericE_dichotomy c0) with
            ⟨bs, hbs⟩ | ⟨e, he, hPe⟩
          · exact Or.inl ⟨(a.1, bs.map Cell.num),
              by simp [converterColuna, hak, hbs]⟩
          · exact Or.inr ⟨e, by simp [converterColuna, hak, he], hPe⟩
      · refine ⟨p, hp, ?_⟩
        intro b hb
        have hfail : ∃ e, mapE toNumericE p.2 = .error e ∧
            ∃ m, e = .valueError m := by
          apply mapE_error_of_exists
          · exact fun c0 _ => toNumericE_dichotomy c0
          · refine ⟨c, hc, ?_⟩
            intro b0 hb0
            rw [hcs] at hb0
            simp [toNumericE, hps] at hb0
        obtain ⟨e, he, m, hem⟩ := hfail
        rw [converterColuna, if_neg hpk, he] at hb
        exact absurd hb (by simp)
    obtain ⟨e, he, m, hem⟩ := herr
    subst hem
    refine ⟨m, ?_⟩
    simp [carregar_dados_csv, hfn, hfa, hi, hq, he]

/-- C8 witness: loading the well-formed tables yields numeric non-key
cells (instantiated at the preco column of daW); loading the table whose
preco cell reads caro raises a ValueError. -/
theorem c8_conversao_numerica_witness :
    (∃ q, Cell.num 2 = Cell.num q) ∧
    ∃ msg, carregar_dados_csv fsBad "nutrientes.csv" "ingrediente.csv" =
      .error (.valueError msg) :=
  ⟨c8_conversao_numerica.1 fsW "nutrientes.csv" "ingrediente.csv" dnW daW
      (by with_unfolding_all decide) ("preco", [Cell.num 2]) (by decide)
      (by decide) (Cell.num 2) (by decide),
   c8_conversao_numerica.2 fsBad "nutrientes.csv" "ingrediente.csv"
      rawNW rawABad (by decide) (by decide) (by with_unfolding_all decide)
      (by with_unfolding_all decide)
      ⟨("preco", [Cell.str "caro"]), by with_unfolding_all decide, by decide,
        Cell.str "caro", by decide, "caro", rfl, by decide⟩⟩

/-- C9: if either input file is missing, the loader fails with the
distinct file-not-found error before reading either table: the result is a
fixed error value that does not depend on any file content. -/
theorem c9_fonte_ausente (fs : String → Option RawTable)
    (nomeNutrientes nomeAlimentos : String)
    (h : fs nomeNutrientes = none ∨ fs nomeAlimentos = none) :
    carregar_dados_csv fs nomeNutrientes nomeAlimentos =
      .error (.fileNotFound
        "Um ou ambos os arquivos CSV nao foram encontrados. Certifique-se de que estao na mesma pasta do script.") := by
  rcases h with h | h
  · cases hfa : fs nomeAlimentos with
    | none => simp [carregar_dados_csv, h, hfa]
    | some rawA => simp [carregar_dados_csv, h, hfa]
  · cases hfn : fs nomeNutrientes with
    | none => simp [carregar_dados_csv, h, hfn]
    | some rawN => simp [carregar_dados_csv, h, hfn]

/-- C9 witness: the concrete file system fsW has no file named
faltando.csv, so the loader reports the file-not-found error. -/
theorem c9_fonte_ausente_witness :
    carregar_dados_csv fsW "nutrientes.csv" "faltando.csv" =
      .error (.fileNotFound
        "Um ou ambos os arquivos CSV nao foram encontrados. Certifique-se de que estao na mesma pasta do script.") :=
  c9_fonte_ausente fsW "nutrientes.csv" "faltando.csv" (Or.inr (by decide))

end ATCNP2
